import Mathlib

/-!
Verification development for the infidate-js date-picker core
(src/src/infidate.js).  The JavaScript host environment (the `Date`
object, number-to-string coercion, `String.prototype.split`,
`Number(...)`) is modelled explicitly; the library's own functions
(`InfiDateUtils.*`, the `InfiDatePicker` selection state machine and
pagination logic) are translated one-to-one from the source.
All definitions are executable; machine integers are `Int`/`Nat`.
-/

/-! ## JavaScript host: number-to-string coercion (decimal) -/

/-- Digits of a natural number, most significant first; fuel-based so it
reduces definitionally.  `natToDecGo (n+1) n` is always fully normalised. -/
def natToDecGo : Nat → Nat → List Char
  | 0, _ => []
  | f+1, n => if n < 10 then [Nat.digitChar n] else natToDecGo f (n / 10) ++ [Nat.digitChar (n % 10)]

/-- Decimal string of a natural number, as JS template-literal coercion
produces for a nonnegative integer. -/
def natToDec (n : Nat) : List Char := natToDecGo (n + 1) n

/-- JS string coercion of an integer value (`String(n)` for an integral
number): optional minus sign followed by decimal digits. -/
def jsNumToString (i : Int) : String :=
  if i < 0 then String.mk ([Char.ofNat 45] ++ natToDec i.natAbs) else String.mk (natToDec i.natAbs)

/-- Numeric value of a decimal digit character (code point minus 48). -/
def digitVal (c : Char) : Nat := c.toNat - 48

/-- JS `Number(s)` restricted to the shapes the library produces: the empty
string coerces to 0, a nonempty all-digit string to its decimal value, and
anything else to NaN, modelled as `none`. -/
def jsNumber (s : String) : Option Int :=
  if s.data.all (fun c => c.isDigit) then
    some (Int.ofNat (s.data.foldl (fun a c => a * 10 + digitVal c) 0))
  else none

/-- JS `"s".split('-')`: splits on every dash, keeping empty pieces. -/
def jsSplitDashGo (acc : List Char) : List Char → List String
  | [] => [String.mk acc.reverse]
  | c :: cs => if c = Char.ofNat 45 then String.mk acc.reverse :: jsSplitDashGo [] cs else jsSplitDashGo (c :: acc) cs

def jsSplitDash (s : String) : List String := jsSplitDashGo [] s.data

/-- JS `String.prototype.padStart(2, '0')`. -/
def padStart2 (s : String) : String :=
  String.mk (List.replicate (2 - s.data.length) (Char.ofNat 48)) ++ s

/-- JS `String.prototype.slice(-2)`: the last two characters (the whole
string if it is shorter). -/
def sliceLast2 (s : String) : String :=
  String.mk (s.data.drop (s.data.length - 2))

/-! ## JavaScript host: the local-time `Date` object

A JS `Date` as the library uses it is modelled by its local calendar
fields plus the milliseconds elapsed since local midnight.  A value
produced by the host always satisfies `DateValid`. -/

structure JSDate where
  year : Int
  month : Int
  day : Int
  ms : Int
deriving DecidableEq, Repr

/-- Every `Date` the JS host hands out has a month in 0..11, a day valid
for that month, and a time-of-day inside the day. -/
def isLeap (y : Int) : Bool := (y % 4 == 0 && y % 100 != 0) || y % 400 == 0

/-- Length of a (0-indexed) month. -/
def daysInMonth (y m : Int) : Int :=
  if m = 1 then (if isLeap y then 29 else 28)
  else if m = 3 ∨ m = 5 ∨ m = 8 ∨ m = 10 then 30 else 31

def DateValid (d : JSDate) : Prop :=
  0 ≤ d.month ∧ d.month < 12 ∧ 1 ≤ d.day ∧ d.day ≤ daysInMonth d.year d.month ∧
    0 ≤ d.ms ∧ d.ms < 86400000

instance (d : JSDate) : Decidable (DateValid d) := by unfold DateValid; infer_instance

/-- Month normalisation of `new Date(y, m, d)` for out-of-range months,
as a fuel recursion (the host computes the equivalent timestamp). -/
def normMonth : Nat → Int → Int → Int × Int
  | 0, y, m => (y, m)
  | f+1, y, m =>
    if m < 0 then normMonth f (y - 1) (m + 12)
    else if 12 ≤ m then normMonth f (y + 1) (m - 12) else (y, m)

def normYM (y m : Int) : Int × Int := normMonth (m.natAbs + 1) y m

/-- Day normalisation (rollover) of `new Date(y, m, d)` for out-of-range
days, applied after month normalisation. -/
def normDay : Nat → Int → Int → Int → Int × Int × Int
  | 0, y, m, d => (y, m, d)
  | f+1, y, m, d =>
    if d < 1 then
      let p := normYM y (m - 1)
      normDay f p.1 p.2 (d + daysInMonth p.1 p.2)
    else if daysInMonth y m < d then
      let p := normYM y (m + 1)
      normDay f p.1 p.2 (d - daysInMonth y m)
    else (y, m, d)

/-- JS `new Date(y, m, d)` (local midnight), with month and day rollover. -/
def mkDate (y m d : Int) : JSDate :=
  let p := normYM y m
  let q := normDay (d.natAbs + 2) p.1 p.2 d
  ⟨q.1, q.2.1, q.2.2, 0⟩

/-- Days since the epoch (1970-01-01) of a calendar day, via the standard
civil-calendar formula; `m` is the 0-indexed month. -/
def daysFromCivil (y m d : Int) : Int :=
  let m1 := m + 1
  let y2 := y - (if m1 ≤ 2 then 1 else 0)
  let era := y2.fdiv 400
  let yoe := y2 - era * 400
  let doy := (153 * (m1 + (if 2 < m1 then -3 else 9)) + 2).fdiv 5 + d - 1
  let doe := yoe * 365 + yoe.fdiv 4 - yoe.fdiv 100 + doy
  era * 146097 + doe - 719468

/-- The index of the calendar day a `Date` lies on. -/
def dayNumber (d : JSDate) : Int := daysFromCivil d.year d.month d.day

/-- JS `Date.prototype.valueOf` / `getTime` in the (DST-free) local
clock: relational operators on `Date`s compare this value. -/
def tstamp (d : JSDate) : Int := dayNumber d * 86400000 + d.ms

/-- JS `Date.prototype.getDay` (0 = Sunday); the epoch day was a Thursday. -/
def getDay (d : JSDate) : Int := (dayNumber d + 4).emod 7

/-- The JS environment a picker lives in: the current instant (`new
Date()`), and the engine-defined legacy string parser that `new
Date(string)` falls back to for strings that are not in the strict
`YYYY-MM-DD` shape (ECMA-262 leaves that parsing implementation-defined). -/
structure JsEnv where
  now : JSDate
  genericParse : String → Option JSDate

/-! ## InfiDateUtils: static name tables and pure date helpers -/

def MONTH_NAMES : List String := ["January", "February", "March", "April", "May", "June",
  "July", "August", "September", "October", "November", "December"]

def MONTH_NAMES_SHORT : List String := ["Jan", "Feb", "Mar", "Apr", "May", "Jun",
  "Jul", "Aug", "Sep", "Oct", "Nov", "Dec"]

def DAY_NAMES : List String := ["Sunday", "Monday", "Tuesday", "Wednesday", "Thursday", "Friday", "Saturday"]

def DAY_NAMES_SHORT : List String := ["Sun", "Mon", "Tue", "Wed", "Thu", "Fri", "Sat"]

/-- JS array indexing `l[i]` on a string array: out-of-range access gives
`undefined`, which stringifies to "undefined" when interpolated. -/
def listGetJs (l : List String) (i : Int) : String :=
  if 0 ≤ i then l.getD i.toNat "undefined" else "undefined"

/-- InfiDateUtils.iso: local-timezone ISO day string, month and day
zero-padded to two characters (the year is interpolated unpadded). -/
def iso (d : JSDate) : String :=
  jsNumToString d.year ++ "-" ++ padStart2 (jsNumToString (d.month + 1)) ++ "-" ++ padStart2 (jsNumToString d.day)

/-- InfiDateUtils.fdate: `toLocaleDateString` with the en-US short
weekday / short month / numeric day and year options. -/
def fdate (d : JSDate) : String :=
  listGetJs DAY_NAMES_SHORT (getDay d) ++ ", " ++ listGetJs MONTH_NAMES_SHORT d.month ++ " "
    ++ jsNumToString d.day ++ ", " ++ jsNumToString d.year

/-- The replacement table built inside InfiDateUtils.formatDate; a token
absent from the table would map to `undefined` ("undefined" once
stringified), which the regex never produces. -/
def formatMap (d : JSDate) (t : String) : String :=
  if t = "YYYY" then jsNumToString d.year
  else if t = "YY" then sliceLast2 (jsNumToString d.year)
  else if t = "MMMM" then listGetJs MONTH_NAMES d.month
  else if t = "MMM" then listGetJs MONTH_NAMES_SHORT d.month
  else if t = "MM" then padStart2 (jsNumToString (d.month + 1))
  else if t = "M" then jsNumToString (d.month + 1)
  else if t = "DD" then padStart2 (jsNumToString d.day)
  else if t = "D" then jsNumToString d.day
  else if t = "dddd" then listGetJs DAY_NAMES (getDay d)
  else if t = "ddd" then listGetJs DAY_NAMES_SHORT (getDay d)
  else if t = "dd" then String.mk ((listGetJs DAY_NAMES_SHORT (getDay d)).data.take 2)
  else "undefined"

/-- The alternatives of the replacement regex
`/YYYY|YY|MMMM|MMM|MM|M|DD|D|dddd|ddd|dd/g`, in source order; a JS regex
alternation tries them left to right at each scan position. -/
def tokenAlternatives : List String :=
  ["YYYY", "YY", "MMMM", "MMM", "MM", "M", "DD", "D", "dddd", "ddd", "dd"]

def firstTok (cs : List Char) : Option String :=
  tokenAlternatives.find? (fun t => t.data.isPrefixOf cs)

/-- Global regex replacement: scan left to right; at each position replace
the first alternative that matches, else copy the character. -/
def replTok (map : String → String) : Nat → List Char → List Char
  | 0, cs => cs
  | _+1, [] => []
  | f+1, c :: cs =>
    match firstTok (c :: cs) with
    | some t => (map t).data ++ replTok map f (List.drop (t.data.length - 1) cs)
    | none => c :: replTok map f cs

/-- InfiDateUtils.formatDate: token replacement when a pattern is given
(a `none` or empty pattern is falsy and falls back to `fdate`). -/
def formatDate (d : JSDate) (format : Option String) : String :=
  match format with
  | none => fdate d
  | some f => if f = "" then fdate d else String.mk (replTok (formatMap d) f.data.length f.data)

/-- A value accepted by InfiDateUtils.parseDate: a Date object, a string,
or null/undefined. -/
inductive DateInput where
  | dateVal (d : JSDate)
  | strVal (s : String)
  | nullVal
deriving DecidableEq

/-- JS truthiness of a DateInput (`null`, `undefined` and `""` are falsy). -/
def truthy : DateInput → Bool
  | .nullVal => false
  | .dateVal _ => true
  | .strVal s => !(s == "")

/-- Match of the strict ISO pattern `^(\d{4})-(\d{2})-(\d{2})$`, returning
the three decimal component values. -/
def isoMatch (s : String) : Option (Int × Int × Int) :=
  match s.data with
  | [y1, y2, y3, y4, h1, m1, m2, h2, d1, d2] =>
    if y1.isDigit && y2.isDigit && y3.isDigit && y4.isDigit && (h1 == Char.ofNat 45)
        && m1.isDigit && m2.isDigit && (h2 == Char.ofNat 45) && d1.isDigit && d2.isDigit then
      some (Int.ofNat (digitVal y1 * 1000 + digitVal y2 * 100 + digitVal y3 * 10 + digitVal y4),
            Int.ofNat (digitVal m1 * 10 + digitVal m2),
            Int.ofNat (digitVal d1 * 10 + digitVal d2))
    else none
  | _ => none

/-- InfiDateUtils.parseDate: falsy input gives null; a Date passes
through; "today" gives the current instant; a strict `YYYY-MM-DD` string
is parsed as local-day components via `new Date(y, m-1, d)`; any other
string falls back to the engine's generic `new Date(string)` parsing. -/
def parseDate (env : JsEnv) : DateInput → Option JSDate
  | .nullVal => none
  | .dateVal d => some d
  | .strVal s =>
    if s = "" then none
    else if s = "today" then some env.now
    else
      match isoMatch s with
      | some (y, m, d) => some (mkDate y (m - 1) d)
      | none => env.genericParse s

/-- InfiDateUtils.daysDiff: millisecond difference over one day, with
`Math.round` (floor of the value plus one half). -/
def daysDiff (a b : JSDate) : Int := (tstamp b - tstamp a + 43200000).fdiv 86400000

/-- InfiDateUtils.isSameDay: null-safe ISO-day string equality. -/
def isSameDay (a b : Option JSDate) : Bool :=
  match a, b with
  | some x, some y => iso x == iso y
  | _, _ => false

/-- JS relational comparison of strings: lexicographic by code unit. -/
def charListLe : List Char → List Char → Bool
  | [], _ => true
  | _ :: _, [] => false
  | a :: as, b :: bs =>
    if a.toNat < b.toNat then true
    else if b.toNat < a.toNat then false
    else charListLe as bs

def jsStrLe (a b : String) : Bool := charListLe a.data b.data

/-! ## Disable/enable rules -/

/-- One entry of a `disable` or `enable` configuration array: a predicate
function, a Date instance, an ISO string, or a `from`/`to` range object.
The JS `typeof`/`instanceof` probes check these shapes in exactly this
order, and the shapes are mutually exclusive. -/
inductive Rule where
  | pred (f : JSDate → Bool)
  | dateRule (d : JSDate)
  | strRule (s : String)
  | interval (lo hi : DateInput)

/-- Loop body of InfiDateUtils.isDateDisabled for one rule: a range object
is considered only when both fields are truthy and both parse; matching is
by ISO-day strings, inclusive at both ends of a range. -/
def disableRuleHit (env : JsEnv) (date : JSDate) : Rule → Bool
  | .pred f => f date
  | .dateRule dd => iso date == iso dd
  | .strRule s => iso date == s
  | .interval lo hi =>
    if truthy lo && truthy hi then
      match parseDate env lo, parseDate env hi with
      | some fromDate, some toDate =>
        jsStrLe (iso fromDate) (iso date) && jsStrLe (iso date) (iso toDate)
      | _, _ => false
    else false

/-- InfiDateUtils.isDateDisabled on a (non-null) rule array: true at the
first matching rule. -/
def isDateDisabledU (env : JsEnv) (date : JSDate) (arr : List Rule) : Bool :=
  arr.any (disableRuleHit env date)

/-- Loop body of InfiDateUtils.isDateEnabled for one rule; the source
duplicates the matching logic of the disable loop verbatim. -/
def enableRuleHit (env : JsEnv) (date : JSDate) : Rule → Bool
  | .pred f => f date
  | .dateRule dd => iso date == iso dd
  | .strRule s => iso date == s
  | .interval lo hi =>
    if truthy lo && truthy hi then
      match parseDate env lo, parseDate env hi with
      | some fromDate, some toDate =>
        jsStrLe (iso fromDate) (iso date) && jsStrLe (iso date) (iso toDate)
      | _, _ => false
    else false

/-- InfiDateUtils.isDateEnabled on a (non-null) rule array: true at the
first matching rule, false when no rule matches. -/
def isDateEnabledU (env : JsEnv) (date : JSDate) (arr : List Rule) : Bool :=
  arr.any (enableRuleHit env date)

/-! ## InfiDatePicker: configuration and selection state machine -/

inductive Mode where
  | single
  | range
deriving DecidableEq

/-- The configuration fields of InfiDatePicker that the core logic reads
(defaults per the constructor: mode single, no bounds, empty blacklist,
null whitelist, minRangeDays 1, maxRangeDays 365, defaultToToday true,
maxMonths 72, initialMonths 12). -/
structure Config where
  mode : Mode
  minDate : DateInput
  maxDate : DateInput
  minYear : Option Int
  maxYear : Option Int
  disable : List Rule
  enable : Option (List Rule)
  minRangeDays : Int
  maxRangeDays : Int
  defaultToToday : Bool
  maxMonths : Nat
  initialMonths : Nat

/-- JS truthiness of an optional numeric year option (0 and null falsy). -/
def optYearTruthy : Option Int → Bool
  | none => false
  | some v => !(v == 0)

/-- InfiDatePicker.isDateDisabled: whitelist check first, then the
minDate/maxDate bounds (full `Date` relational comparison, i.e. timestamp
order), then the blacklist. -/
def pickerIsDateDisabled (env : JsEnv) (cfg : Config) (date : JSDate) : Bool :=
  if (match cfg.enable with
      | some arr => !(isDateEnabledU env date arr)
      | none => false) then true
  else if (truthy cfg.minDate &&
      match parseDate env cfg.minDate with
      | some minD => tstamp date < tstamp minD
      | none => false) then true
  else if (truthy cfg.maxDate &&
      match parseDate env cfg.maxDate with
      | some maxD => tstamp maxD < tstamp date
      | none => false) then true
  else isDateDisabledU env date cfg.disable

/-- The picker's mutable selection fields, plus the current mode (the
source mutates `config.mode` in switchMode). -/
structure SelState where
  mode : Mode
  selectedDate : Option JSDate
  selectedStartDate : Option JSDate
  selectedEndDate : Option JSDate
deriving DecidableEq

/-- Payload of a range-mode change notification
(InfiDatePicker.getChangeData, range branch). -/
structure RangeData where
  start : Option JSDate
  endDate : Option JSDate
  formattedStart : Option String
  formattedEnd : Option String
  isoStart : Option String
  isoEnd : Option String
  nights : Option Int
  days : Option Int
deriving DecidableEq

/-- Payload handed to onChange callbacks. -/
inductive ChangeData where
  | single (date : Option JSDate) (formatted : Option String) (isoStr : Option String)
  | range (data : RangeData)
deriving DecidableEq

/-- InfiDatePicker.getChangeData: the single payload, or the range payload
whose nights/days fields are present exactly when both ends are set. -/
def getChangeData (st : SelState) : ChangeData :=
  match st.mode with
  | .single =>
    .single st.selectedDate
      (st.selectedDate.map (fun d => formatDate d (some "MMM D, YYYY")))
      (st.selectedDate.map iso)
  | .range =>
    let base : RangeData :=
      { start := st.selectedStartDate
        endDate := st.selectedEndDate
        formattedStart := st.selectedStartDate.map (fun d => formatDate d (some "MMM D, YYYY"))
        formattedEnd := st.selectedEndDate.map (fun d => formatDate d (some "MMM D, YYYY"))
        isoStart := st.selectedStartDate.map iso
        isoEnd := st.selectedEndDate.map iso
        nights := none
        days := none }
    match st.selectedStartDate, st.selectedEndDate with
    | some s, some e =>
      .range { base with nights := some (daysDiff s e), days := some (daysDiff s e + 1) }
    | _, _ => .range base

/-- InfiDatePicker.handleRangeSelection, returning the new state and the
change notification if one fired. -/
def handleRangeSelection (cfg : Config) (st : SelState) (date : JSDate) : SelState × Option ChangeData :=
  match st.selectedStartDate, st.selectedEndDate with
  | none, _ =>
    ({ st with selectedStartDate := some date, selectedEndDate := none }, none)
  | some _, some _ =>
    ({ st with selectedStartDate := some date, selectedEndDate := none }, none)
  | some start, none =>
    if tstamp date < tstamp start then
      ({ st with selectedStartDate := some date, selectedEndDate := none }, none)
    else
      let st1 := { st with selectedEndDate := some date }
      let dd := daysDiff start date
      if dd < cfg.minRangeDays - 1 then
        ({ st with selectedStartDate := some date, selectedEndDate := none }, none)
      else if cfg.maxRangeDays - 1 < dd then
        ({ st with selectedStartDate := some date, selectedEndDate := none }, none)
      else (st1, some (getChangeData st1))

/-- InfiDatePicker.selectDate: a disabled candidate returns with no state
change and no notification; otherwise dispatch on the mode. -/
def selectDate (env : JsEnv) (cfg : Config) (st : SelState) (date : JSDate) : SelState × Option ChangeData :=
  if pickerIsDateDisabled env cfg date then (st, none)
  else
    match st.mode with
    | .single =>
      let st1 := { st with selectedDate := some date }
      (st1, some (getChangeData st1))
    | .range => handleRangeSelection cfg st date

/-- InfiDatePicker.switchMode: same mode is a no-op; a different mode
resets all three selection fields. -/
def switchMode (st : SelState) (newMode : Mode) : SelState :=
  if newMode = st.mode then st
  else ⟨newMode, none, none, none⟩

/-- Selection state after construction (constructor plus init):
selections empty, then a selectDate on the current instant when
defaultToToday is configured in single mode. -/
def initState (env : JsEnv) (cfg : Config) : SelState :=
  let st : SelState := ⟨cfg.mode, none, none, none⟩
  if cfg.defaultToToday ∧ cfg.mode = .single then (selectDate env cfg st env.now).1 else st

/-- One user-driven operation on the selection state machine. -/
inductive SelOp where
  | sel (d : JSDate)
  | switch (m : Mode)

def selStep (env : JsEnv) (cfg : Config) (st : SelState) : SelOp → SelState
  | .sel d => (selectDate env cfg st d).1
  | .switch m => switchMode st m

/-- Selection state after a sequence of operations on a fresh picker. -/
def runSel (env : JsEnv) (cfg : Config) (ops : List SelOp) : SelState :=
  ops.foldl (selStep env cfg) (initState env cfg)

/-! ## InfiDatePicker: month pagination -/

/-- Month key as built in loadMonth: template interpolation of the local
year and 0-indexed month. -/
def monthKey (y m : Int) : String := jsNumToString y ++ "-" ++ jsNumToString m

/-- InfiDatePicker.loadMonth, restricted to the loaded-month bookkeeping:
a month whose key is already present is skipped, otherwise its key is
appended. -/
def loadMonthK (months : List String) (y m : Int) : List String :=
  let key := monthKey y m
  if key ∈ months then months else months ++ [key]

/-- Loop of InfiDatePicker.loadInitialMonths: the i-th month is the start
month shifted by i (normalised by `setMonth`); the loop breaks as soon as
a month's year exceeds a configured maxYear. -/
def loadInitialAux (cfg : Config) (sy sm : Int) : Nat → Nat → List String → List String
  | 0, _, months => months
  | k+1, i, months =>
    let p := normYM sy (sm + Int.ofNat i)
    if optYearTruthy cfg.maxYear && (cfg.maxYear.getD 0 < p.1) then months
    else loadInitialAux cfg sy sm k (i + 1) (loadMonthK months p.1 p.2)

/-- InfiDatePicker.loadInitialMonths: start at the first day of the
current month, clamped forward to January of minYear when the current
year predates a configured minYear, then load initialMonths consecutive
months. -/
def loadInitialMonths (env : JsEnv) (cfg : Config) (months : List String) : List String :=
  let clamp := optYearTruthy cfg.minYear && (env.now.year < cfg.minYear.getD 0)
  let sy := if clamp then cfg.minYear.getD 0 else env.now.year
  let sm := if clamp then 0 else env.now.month
  loadInitialAux cfg sy sm cfg.initialMonths 0 months

/-- InfiDatePicker.loadMoreMonths: refuse once maxMonths keys are loaded;
otherwise split the last key back into year and month, build the
immediately following month, refuse when its year exceeds a configured
maxYear, and load it.  The `none` fallbacks are unreachable in the
library's own call sequences: the JS code would fault on an empty loaded
list (split of undefined) and build an Invalid Date from a key that does
not parse back, and every key loadMonth builds from a nonnegative year
parses back. -/
def loadMoreMonths (cfg : Config) (months : List String) : List String :=
  if cfg.maxMonths ≤ months.length then months
  else
    match months.getLast? with
    | none => months
    | some lastKey =>
      let parts := (jsSplitDash lastKey).map jsNumber
      match parts.getD 0 none, parts.getD 1 none with
      | some y, some m =>
        let next := mkDate y (m + 1) 1
        if optYearTruthy cfg.maxYear && (cfg.maxYear.getD 0 < next.year) then months
        else loadMonthK months next.year next.month
      | _, _ => months

/-- One pagination-relevant operation. -/
inductive PagOp where
  | init
  | next

def pagStep (env : JsEnv) (cfg : Config) (months : List String) : PagOp → List String
  | .init => loadInitialMonths env cfg months
  | .next => loadMoreMonths cfg months

/-- Loaded months after a sequence of pagination operations on a fresh
picker. -/
def runPag (env : JsEnv) (cfg : Config) (ops : List PagOp) : List String :=
  ops.foldl (pagStep env cfg) []

/-! ## Auxiliary notions used to state the claims -/

/-- Nights field of a range change notification, if any. -/
def notifNights : Option ChangeData → Option Int
  | some (.range rd) => rd.nights
  | _ => none

/-- Days field of a range change notification, if any. -/
def notifDays : Option ChangeData → Option Int
  | some (.range rd) => rd.days
  | _ => none

/-- The time-of-day of a host-produced Date always lies inside the day. -/
def msOk (d : JSDate) : Prop := 0 ≤ d.ms ∧ d.ms < 86400000

instance (d : JSDate) : Decidable (msOk d) := by unfold msOk; infer_instance

/-- The range-selection invariant: the end is absent whenever the start
is, and whenever both are present the start's calendar day is not after
the end's. -/
def SelInv (st : SelState) : Prop :=
  (st.selectedStartDate = none → st.selectedEndDate = none) ∧
  (∀ s e, st.selectedStartDate = some s → st.selectedEndDate = some e → dayNumber s ≤ dayNumber e)

/-- Whether a rule is the predicate variant (whose match sees the raw
Date, time of day included). -/
def isPredRule : Rule → Bool
  | .pred _ => true
  | _ => false

/-! ## Concrete fixtures used by witnesses and counterexamples -/

def dNov25 : JSDate := ⟨2025, 10, 25, 0⟩

def dNov26 : JSDate := ⟨2025, 10, 26, 0⟩

def dNov28 : JSDate := ⟨2025, 10, 28, 0⟩

/-- A fixed environment: the clock reads local midnight, Nov 25 2025, and
the engine's legacy parser accepts nothing. -/
def envFix : JsEnv := ⟨dNov25, fun _ => none⟩

/-- Range-mode configuration with minRangeDays 2 and the other fields at
their defaults. -/
def cfgMin2 : Config := ⟨.range, .nullVal, .nullVal, none, none, [], none, 2, 365, false, 72, 12⟩

/-- Range-mode configuration with minRangeDays 3. -/
def cfgMin3 : Config := ⟨.range, .nullVal, .nullVal, none, none, [], none, 3, 365, false, 72, 12⟩

/-! ## Supporting lemmas: decimal digit strings -/

lemma natToDecGo_lt (f n : Nat) (h : n < 10) : natToDecGo (f+1) n = [Nat.digitChar n] := by
  simp [natToDecGo, h]

lemma natToDecGo_ge (f n : Nat) (h : 10 ≤ n) :
    natToDecGo (f+1) n = natToDecGo f (n / 10) ++ [Nat.digitChar (n % 10)] := by
  simp [natToDecGo, Nat.not_lt.mpr h]

lemma digitChar_isDigit {n : Nat} (h : n < 10) : (Nat.digitChar n).isDigit = true := by
  interval_cases n <;> decide

lemma digitVal_digitChar {n : Nat} (h : n < 10) : digitVal (Nat.digitChar n) = n := by
  interval_cases n <;> decide

lemma lt_ten_pow_succ (n : Nat) : n < 10 ^ (n + 1) :=
  calc n < 10 ^ n := Nat.lt_pow_self (by norm_num) n
  _ ≤ 10 ^ (n + 1) := Nat.pow_le_pow_right (by norm_num) (Nat.le_succ n)

lemma natToDecGo_digits : ∀ f n, n < 10 ^ f → ∀ c ∈ natToDecGo f n, c.isDigit = true := by
  intro f
  induction f with
  | zero => intro n h c hc; simp [natToDecGo] at hc
  | succ f ih =>
    intro n h c hc
    by_cases h10 : n < 10
    · rw [natToDecGo_lt f n h10] at hc
      simp at hc
      subst hc
      exact digitChar_isDigit h10
    · rw [natToDecGo_ge f n (Nat.not_lt.mp h10)] at hc
      rw [List.mem_append] at hc
      rcases hc with hc | hc
      · exact ih (n / 10) (Nat.div_lt_of_lt_mul (by rw [pow_succ] at h; omega)) c hc
      · simp at hc
        subst hc
        exact digitChar_isDigit (Nat.mod_lt n (by norm_num))

lemma natToDec_digits (n : Nat) : ∀ c ∈ natToDec n, c.isDigit = true :=
  natToDecGo_digits (n + 1) n (lt_ten_pow_succ n)

lemma natToDecGo_foldl : ∀ f n a, n < 10 ^ f →
    (natToDecGo f n).foldl (fun a c => a * 10 + digitVal c) a
      = a * 10 ^ (natToDecGo f n).length + n := by
  intro f
  induction f with
  | zero =>
    intro n a h
    norm_num at h
    subst h
    simp [natToDecGo]
  | succ f ih =>
    intro n a h
    by_cases h10 : n < 10
    · rw [natToDecGo_lt f n h10]
      simp [digitVal_digitChar h10]
    · rw [natToDecGo_ge f n (Nat.not_lt.mp h10)]
      have hdiv : n / 10 < 10 ^ f := Nat.div_lt_of_lt_mul (by rw [pow_succ] at h; omega)
      rw [List.foldl_append, ih (n / 10) a hdiv]
      have hmod : n % 10 < 10 := Nat.mod_lt n (by norm_num)
      simp only [List.foldl_cons, List.foldl_nil, List.length_append, List.length_singleton]
      rw [digitVal_digitChar hmod]
      have hsplit : n / 10 * 10 + n % 10 = n := by omega
      calc (a * 10 ^ (natToDecGo f (n / 10)).length + n / 10) * 10 + n % 10
      _ = a * (10 ^ (natToDecGo f (n / 10)).length * 10) + (n / 10 * 10 + n % 10) := by ring
      _ = a * 10 ^ ((natToDecGo f (n / 10)).length + 1) + n := by rw [pow_succ, hsplit]

lemma natToDec_foldl (n : Nat) :
    (natToDec n).foldl (fun a c => a * 10 + digitVal c) 0 = n := by
  have := natToDecGo_foldl (n + 1) n 0 (lt_ten_pow_succ n)
  simpa using this

lemma jsNumber_natToDec (n : Nat) : jsNumber (String.mk (natToDec n)) = some (Int.ofNat n) := by
  unfold jsNumber
  rw [if_pos]
  · rw [show (String.mk (natToDec n)).data = natToDec n from rfl, natToDec_foldl]
  · rw [show (String.mk (natToDec n)).data = natToDec n from rfl]
    rw [List.all_eq_true]
    intro c hc
    exact natToDec_digits n c hc

lemma jsNumber_jsNumToString {y : Int} (h : 0 ≤ y) : jsNumber (jsNumToString y) = some y := by
  unfold jsNumToString
  rw [if_neg (by omega), jsNumber_natToDec]
  congr 1
  simp only [Int.ofNat_eq_natCast]
  omega

lemma natToDec_one {n : Nat} (h : n < 10) : natToDec n = [Nat.digitChar n] := by
  unfold natToDec
  exact natToDecGo_lt n n h

lemma natToDec_two {n : Nat} (h1 : 10 ≤ n) (h2 : n ≤ 99) :
    natToDec n = [Nat.digitChar (n / 10), Nat.digitChar (n % 10)] := by
  unfold natToDec
  obtain ⟨f, hf⟩ : ∃ f, n + 1 = (f + 1) + 1 := ⟨n - 1, by omega⟩
  rw [hf, natToDecGo_ge (f + 1) n h1, natToDecGo_lt f (n / 10) (by omega)]
  rfl

lemma natToDec_four {n : Nat} (h1 : 1000 ≤ n) (h2 : n ≤ 9999) :
    natToDec n = [Nat.digitChar (n / 1000), Nat.digitChar (n / 100 % 10),
      Nat.digitChar (n / 10 % 10), Nat.digitChar (n % 10)] := by
  unfold natToDec
  obtain ⟨f, hf⟩ : ∃ f, n + 1 = (((f + 1) + 1) + 1) + 1 := ⟨n - 3, by omega⟩
  rw [hf, natToDecGo_ge _ n (by omega), natToDecGo_ge _ (n / 10) (by omega)]
  rw [show n / 10 / 10 = n / 100 by omega]
  rw [natToDecGo_ge _ (n / 100) (by omega)]
  rw [show n / 100 / 10 = n / 1000 by omega]
  rw [natToDecGo_lt _ (n / 1000) (by omega)]
  simp

lemma pad2_parse {n : Nat} (h : n ≤ 99) :
    ∃ c1 c2, (padStart2 (String.mk (natToDec n))).data = [c1, c2]
      ∧ c1.isDigit = true ∧ c2.isDigit = true ∧ digitVal c1 * 10 + digitVal c2 = n := by
  by_cases h10 : n < 10
  · refine ⟨Char.ofNat 48, Nat.digitChar n, ?_, by decide, digitChar_isDigit h10, ?_⟩
    · rw [natToDec_one h10]
      rfl
    · rw [show digitVal (Char.ofNat 48) = 0 from rfl, digitVal_digitChar h10]
      omega
  · refine ⟨Nat.digitChar (n / 10), Nat.digitChar (n % 10), ?_, digitChar_isDigit (by omega),
      digitChar_isDigit (by omega), ?_⟩
    · rw [natToDec_two (by omega) h]
      rfl
    · rw [digitVal_digitChar (by omega : n / 10 < 10), digitVal_digitChar (by omega : n % 10 < 10)]
      omega

lemma year4_parse {n : Nat} (h1 : 1000 ≤ n) (h2 : n ≤ 9999) :
    ∃ c1 c2 c3 c4, (String.mk (natToDec n)).data = [c1, c2, c3, c4]
      ∧ c1.isDigit = true ∧ c2.isDigit = true ∧ c3.isDigit = true ∧ c4.isDigit = true
      ∧ digitVal c1 * 1000 + digitVal c2 * 100 + digitVal c3 * 10 + digitVal c4 = n := by
  refine ⟨Nat.digitChar (n / 1000), Nat.digitChar (n / 100 % 10), Nat.digitChar (n / 10 % 10),
    Nat.digitChar (n % 10), ?_, digitChar_isDigit (by omega), digitChar_isDigit (by omega),
    digitChar_isDigit (by omega), digitChar_isDigit (by omega), ?_⟩
  · rw [show (String.mk (natToDec n)).data = natToDec n from rfl, natToDec_four h1 h2]
  · rw [digitVal_digitChar (by omega : n / 1000 < 10), digitVal_digitChar (by omega : n / 100 % 10 < 10),
      digitVal_digitChar (by omega : n / 10 % 10 < 10), digitVal_digitChar (by omega : n % 10 < 10)]
    omega

/-! ## Supporting lemmas: calendar normalisation -/

lemma normMonth_succ (f : Nat) (y m : Int) : normMonth (f+1) y m =
    (if m < 0 then normMonth f (y - 1) (m + 12)
     else if 12 ≤ m then normMonth f (y + 1) (m - 12) else (y, m)) := rfl

lemma normDay_succ (f : Nat) (y m d : Int) : normDay (f+1) y m d =
    (if d < 1 then
      normDay f (normYM y (m - 1)).1 (normYM y (m - 1)).2 (d + daysInMonth (normYM y (m - 1)).1 (normYM y (m - 1)).2)
    else if daysInMonth y m < d then
      normDay f (normYM y (m + 1)).1 (normYM y (m + 1)).2 (d - daysInMonth y m)
    else (y, m, d)) := rfl

lemma normYM_id {y m : Int} (h0 : 0 ≤ m) (h12 : m < 12) : normYM y m = (y, m) := by
  have h1 : ¬ m < 0 := by omega
  have h2 : ¬ 12 ≤ m := by omega
  unfold normYM
  rw [show m.natAbs + 1 = m.natAbs + 1 from rfl, normMonth_succ, if_neg h1, if_neg h2]

lemma one_le_daysInMonth (y m : Int) : 1 ≤ daysInMonth y m := by
  unfold daysInMonth; split_ifs <;> norm_num

lemma daysInMonth_le_31 (y m : Int) : daysInMonth y m ≤ 31 := by
  unfold daysInMonth; split_ifs <;> norm_num

lemma mkDate_id {y m d : Int} (h0 : 0 ≤ m) (h12 : m < 12) (hd1 : 1 ≤ d) (hd2 : d ≤ daysInMonth y m) :
    mkDate y m d = ⟨y, m, d, 0⟩ := by
  have h1 : ¬ d < 1 := by omega
  have h2 : ¬ daysInMonth y m < d := by omega
  unfold mkDate
  dsimp only
  rw [normYM_id h0 h12]
  rw [show d.natAbs + 2 = (d.natAbs + 1) + 1 from rfl, normDay_succ, if_neg h1, if_neg h2]

lemma mkDate_succ_month {y m : Int} (h0 : 0 ≤ m) (h12 : m < 12) :
    mkDate y (m + 1) 1 = if m = 11 then ⟨y + 1, 0, 1, 0⟩ else ⟨y, m + 1, 1, 0⟩ := by
  by_cases h : m = 11
  · subst h
    simp [mkDate, normYM, normMonth, normDay, daysInMonth, isLeap]
  · rw [if_neg h]
    exact mkDate_id (by omega) (by omega) (by norm_num) (one_le_daysInMonth y (m+1))

/-! ## Supporting lemmas: the ISO round trip -/

lemma isoMatch_iso {d : JSDate} (hv : DateValid d) (hy1 : 1000 ≤ d.year) (hy2 : d.year ≤ 9999) :
    isoMatch (iso d) = some (d.year, d.month + 1, d.day) := by
  obtain ⟨hm0, hm12, hd1, hd31, -, -⟩ := hv
  have hd31' : d.day ≤ 31 := le_trans hd31 (daysInMonth_le_31 d.year d.month)
  obtain ⟨c1, c2, c3, c4, hy, hc1, hc2, hc3, hc4, hyv⟩ :=
    year4_parse (n := d.year.natAbs) (by omega) (by omega)
  obtain ⟨m1, m2, hm, hm1, hm2, hmv⟩ := pad2_parse (n := (d.month + 1).natAbs) (by omega)
  obtain ⟨e1, e2, he, he1, he2, hev⟩ := pad2_parse (n := d.day.natAbs) (by omega)
  have hy' : natToDec d.year.natAbs = [c1, c2, c3, c4] := hy
  have hdata : (iso d).data = [c1, c2, c3, c4, Char.ofNat 45, m1, m2, Char.ofNat 45, e1, e2] := by
    unfold iso jsNumToString
    rw [if_neg (by omega), if_neg (by omega), if_neg (by omega)]
    simp only [String.data_append, hy', hm, he]
    rfl
  have hstr : iso d = String.mk [c1, c2, c3, c4, Char.ofNat 45, m1, m2, Char.ofNat 45, e1, e2] := by
    rw [← hdata]
  rw [hstr]
  rw [show isoMatch (String.mk [c1, c2, c3, c4, Char.ofNat 45, m1, m2, Char.ofNat 45, e1, e2]) =
    (if c1.isDigit && c2.isDigit && c3.isDigit && c4.isDigit && (Char.ofNat 45 == Char.ofNat 45)
        && m1.isDigit && m2.isDigit && (Char.ofNat 45 == Char.ofNat 45) && e1.isDigit && e2.isDigit then
      some (Int.ofNat (digitVal c1 * 1000 + digitVal c2 * 100 + digitVal c3 * 10 + digitVal c4),
            Int.ofNat (digitVal m1 * 10 + digitVal m2),
            Int.ofNat (digitVal e1 * 10 + digitVal e2))
    else none) from rfl]
  rw [if_pos (by simp [hc1, hc2, hc3, hc4, hm1, hm2, he1, he2])]
  congr 1
  refine Prod.ext ?_ (Prod.ext ?_ ?_) <;> simp only [Int.ofNat_eq_natCast] <;> omega

lemma digit_ne_dash {c : Char} (h : c.isDigit = true) : ¬ c = Char.ofNat 45 := by
  intro he
  subst he
  exact absurd h (by decide)

lemma jsSplitDashGo_no_dash : ∀ (xs acc : List Char), (∀ c ∈ xs, ¬ c = Char.ofNat 45) →
    jsSplitDashGo acc xs = [String.mk (acc.reverse ++ xs)] := by
  intro xs
  induction xs with
  | nil => intro acc _; simp [jsSplitDashGo]
  | cons c cs ih =>
    intro acc h
    rw [show jsSplitDashGo acc (c :: cs) =
      (if c = Char.ofNat 45 then String.mk acc.reverse :: jsSplitDashGo [] cs
       else jsSplitDashGo (c :: acc) cs) from rfl]
    rw [if_neg (h c (by simp))]
    rw [ih (c :: acc) (fun x hx => h x (by simp [hx]))]
    simp

lemma jsSplitDashGo_dash : ∀ (xs ys acc : List Char), (∀ c ∈ xs, ¬ c = Char.ofNat 45) →
    jsSplitDashGo acc (xs ++ Char.ofNat 45 :: ys)
      = String.mk (acc.reverse ++ xs) :: jsSplitDashGo [] ys := by
  intro xs
  induction xs with
  | nil => intro ys acc _; simp [jsSplitDashGo]
  | cons c cs ih =>
    intro ys acc h
    rw [List.cons_append]
    rw [show jsSplitDashGo acc (c :: (cs ++ Char.ofNat 45 :: ys)) =
      (if c = Char.ofNat 45 then String.mk acc.reverse :: jsSplitDashGo [] (cs ++ Char.ofNat 45 :: ys)
       else jsSplitDashGo (c :: acc) (cs ++ Char.ofNat 45 :: ys)) from rfl]
    rw [if_neg (h c (by simp))]
    rw [ih ys (c :: acc) (fun x hx => h x (by simp [hx]))]
    simp

lemma jsSplitDash_monthKey {y m : Int} (hy : 0 ≤ y) (hm : 0 ≤ m) :
    jsSplitDash (monthKey y m) = [jsNumToString y, jsNumToString m] := by
  unfold jsSplitDash monthKey
  have hdata : (jsNumToString y ++ "-" ++ jsNumToString m).data
      = natToDec y.natAbs ++ Char.ofNat 45 :: natToDec m.natAbs := by
    unfold jsNumToString
    rw [if_neg (by omega), if_neg (by omega)]
    simp only [String.data_append]
    simp [List.append_assoc]
  rw [hdata]
  rw [jsSplitDashGo_dash _ _ _ (fun c hc => digit_ne_dash (natToDec_digits y.natAbs c hc))]
  rw [jsSplitDashGo_no_dash _ _ (fun c hc => digit_ne_dash (natToDec_digits m.natAbs c hc))]
  unfold jsNumToString
  rw [if_neg (by omega), if_neg (by omega)]
  simp

lemma dayNumber_le_of_tstamp_le {a b : JSDate} (ha : msOk a) (hb : msOk b)
    (h : tstamp a ≤ tstamp b) : dayNumber a ≤ dayNumber b := by
  obtain ⟨ha0, ha1⟩ := ha
  obtain ⟨hb0, hb1⟩ := hb
  unfold tstamp at h
  omega

lemma loadMonthK_nodup {months : List String} (h : months.Nodup) (y m : Int) :
    (loadMonthK months y m).Nodup := by
  unfold loadMonthK
  dsimp only
  split_ifs with hmem
  · exact h
  · rw [List.nodup_append]
    refine ⟨h, List.nodup_singleton _, ?_⟩
    intro a ha hb
    simp at hb
    subst hb
    exact hmem ha

lemma loadInitialAux_nodup (cfg : Config) (sy sm : Int) :
    ∀ (k i : Nat) (months : List String), months.Nodup →
      (loadInitialAux cfg sy sm k i months).Nodup := by
  intro k
  induction k with
  | zero => intro i months h; exact h
  | succ k ih =>
    intro i months h
    rw [show loadInitialAux cfg sy sm (k+1) i months =
      (if optYearTruthy cfg.maxYear && (cfg.maxYear.getD 0 < (normYM sy (sm + Int.ofNat i)).1) then months
       else loadInitialAux cfg sy sm k (i + 1)
         (loadMonthK months (normYM sy (sm + Int.ofNat i)).1 (normYM sy (sm + Int.ofNat i)).2)) from rfl]
    split_ifs
    · exact h
    · exact ih (i + 1) _ (loadMonthK_nodup h _ _)

lemma loadMoreMonths_nodup (cfg : Config) {months : List String} (h : months.Nodup) :
    (loadMoreMonths cfg months).Nodup := by
  unfold loadMoreMonths
  dsimp only
  split_ifs
  · exact h
  · split
    · exact h
    · split
      · split_ifs
        · exact h
        · exact loadMonthK_nodup h _ _
      · exact h

lemma pagStep_nodup (env : JsEnv) (cfg : Config) {months : List String} (h : months.Nodup)
    (op : PagOp) : (pagStep env cfg months op).Nodup := by
  cases op with
  | init => exact loadInitialAux_nodup cfg _ _ _ _ _ h
  | next => exact loadMoreMonths_nodup cfg h

lemma replTok_nil (map : String → String) : ∀ f, replTok map f [] = [] := by
  intro f
  cases f <;> rfl

lemma formatDate_token (d : JSDate) (t : String) (h1 : ¬ t = "")
    (h2 : firstTok t.data = some t) : formatDate d (some t) = formatMap d t := by
  rw [show formatDate d (some t)
    = (if t = "" then fdate d else String.mk (replTok (formatMap d) t.data.length t.data)) from rfl]
  rw [if_neg h1]
  have hT : t = String.mk t.data := rfl
  obtain ⟨c, cs, hcs⟩ : ∃ c cs, t.data = c :: cs := by
    cases ht : t.data with
    | nil => rw [ht] at hT; exact absurd hT h1
    | cons c cs => exact ⟨c, cs, rfl⟩
  rw [hcs] at h2
  conv_lhs => rw [hcs]
  rw [show (c :: cs).length = cs.length + 1 from rfl]
  rw [show replTok (formatMap d) (cs.length + 1) (c :: cs) =
    (match firstTok (c :: cs) with
     | some tk => (formatMap d tk).data ++ replTok (formatMap d) cs.length (List.drop (tk.data.length - 1) cs)
     | none => c :: replTok (formatMap d) cs.length cs) from rfl]
  rw [h2]
  show String.mk ((formatMap d t).data
    ++ replTok (formatMap d) cs.length (List.drop (t.data.length - 1) cs)) = formatMap d t
  rw [hcs]
  rw [show (c :: cs).length - 1 = cs.length from rfl]
  rw [List.drop_length, replTok_nil]
  simp

lemma handleRange_complete (cfg : Config) (st : SelState) (date s : JSDate)
    (hs : st.selectedStartDate = some s) (he : st.selectedEndDate = none)
    (hord : ¬ tstamp date < tstamp s) :
    handleRangeSelection cfg st date =
      (if daysDiff s date < cfg.minRangeDays - 1 ∨ cfg.maxRangeDays - 1 < daysDiff s date then
        ({ st with selectedStartDate := some date, selectedEndDate := none }, none)
      else
        ({ st with selectedEndDate := some date },
          some (getChangeData { st with selectedEndDate := some date }))) := by
  obtain ⟨mo, sd, ss, se⟩ := st
  simp only at hs he
  subst hs he
  show (if tstamp date < tstamp s then
      ((⟨mo, sd, some date, none⟩ : SelState), (none : Option ChangeData))
    else
      let st1 : SelState := ⟨mo, sd, some s, some date⟩
      let dd := daysDiff s date
      if dd < cfg.minRangeDays - 1 then ((⟨mo, sd, some date, none⟩ : SelState), none)
      else if cfg.maxRangeDays - 1 < dd then ((⟨mo, sd, some date, none⟩ : SelState), none)
      else (st1, some (getChangeData st1))) = _
  rw [if_neg hord]
  dsimp only
  by_cases h1 : daysDiff s date < cfg.minRangeDays - 1
  · rw [if_pos h1, if_pos (Or.inl h1)]
  · rw [if_neg h1]
    by_cases h2 : cfg.maxRangeDays - 1 < daysDiff s date
    · rw [if_pos h2, if_pos (Or.inr h2)]
    · rw [if_neg h2, if_neg (by tauto)]

lemma restart_state_inv (mo : Mode) (sd : Option JSDate) (date : JSDate) (hd : msOk date) :
    SelInv (⟨mo, sd, some date, none⟩ : SelState)
      ∧ (∀ s', (⟨mo, sd, some date, none⟩ : SelState).selectedStartDate = some s' → msOk s') :=
  ⟨⟨fun h => Option.noConfusion h, fun _ _ _ he' => Option.noConfusion he'⟩,
    fun _ hs' => (Option.some.inj hs') ▸ hd⟩

lemma selectDate_inv (env : JsEnv) (cfg : Config) (st : SelState) (date : JSDate) (hd : msOk date)
    (hinv : SelInv st) (hok : ∀ s, st.selectedStartDate = some s → msOk s) :
    SelInv (selectDate env cfg st date).1
      ∧ (∀ s, (selectDate env cfg st date).1.selectedStartDate = some s → msOk s) := by
  obtain ⟨mo, sd, ss, se⟩ := st
  obtain ⟨hne, hord⟩ := hinv
  unfold selectDate
  split_ifs with hdis
  · exact ⟨⟨hne, hord⟩, hok⟩
  · cases mo with
    | single => exact ⟨⟨hne, hord⟩, hok⟩
    | range =>
      cases ss with
      | none => exact restart_state_inv Mode.range sd date hd
      | some s =>
        cases se with
        | some e => exact restart_state_inv Mode.range sd date hd
        | none =>
          show SelInv (if tstamp date < tstamp s then
              ((⟨Mode.range, sd, some date, none⟩ : SelState), (none : Option ChangeData))
            else
              let st1 : SelState := ⟨Mode.range, sd, some s, some date⟩
              let dd := daysDiff s date
              if dd < cfg.minRangeDays - 1 then ((⟨Mode.range, sd, some date, none⟩ : SelState), none)
              else if cfg.maxRangeDays - 1 < dd then ((⟨Mode.range, sd, some date, none⟩ : SelState), none)
              else (st1, some (getChangeData st1))).1 ∧
            (∀ s', (if tstamp date < tstamp s then
              ((⟨Mode.range, sd, some date, none⟩ : SelState), (none : Option ChangeData))
            else
              let st1 : SelState := ⟨Mode.range, sd, some s, some date⟩
              let dd := daysDiff s date
              if dd < cfg.minRangeDays - 1 then ((⟨Mode.range, sd, some date, none⟩ : SelState), none)
              else if cfg.maxRangeDays - 1 < dd then ((⟨Mode.range, sd, some date, none⟩ : SelState), none)
              else (st1, some (getChangeData st1))).1.selectedStartDate = some s' → msOk s')
          by_cases h1 : tstamp date < tstamp s
          · rw [if_pos h1]
            exact restart_state_inv Mode.range sd date hd
          · rw [if_neg h1]
            dsimp only
            by_cases h2 : daysDiff s date < cfg.minRangeDays - 1
            · rw [if_pos h2]
              exact restart_state_inv Mode.range sd date hd
            · rw [if_neg h2]
              by_cases h3 : cfg.maxRangeDays - 1 < daysDiff s date
              · rw [if_pos h3]
                exact restart_state_inv Mode.range sd date hd
              · rw [if_neg h3]
                refine ⟨⟨fun h => Option.noConfusion h, fun s' e' hs' he' => ?_⟩,
                  fun s' hs' => hok s' hs'⟩
                obtain rfl := Option.some.inj hs'
                obtain rfl := Option.some.inj he'
                exact dayNumber_le_of_tstamp_le (hok _ rfl) hd (le_of_not_lt h1)

lemma switchMode_inv (st : SelState) (m : Mode)
    (hinv : SelInv st) (hok : ∀ s, st.selectedStartDate = some s → msOk s) :
    SelInv (switchMode st m) ∧ (∀ s, (switchMode st m).selectedStartDate = some s → msOk s) := by
  unfold switchMode
  by_cases h : m = st.mode
  · rw [if_pos h]
    exact ⟨hinv, hok⟩
  · rw [if_neg h]
    exact ⟨⟨fun _ => rfl, fun s' e' hs' _ => Option.noConfusion hs'⟩,
      fun s' hs' => Option.noConfusion hs'⟩

lemma initState_inv (env : JsEnv) (cfg : Config) (hnow : msOk env.now) :
    SelInv (initState env cfg)
      ∧ (∀ s, (initState env cfg).selectedStartDate = some s → msOk s) := by
  unfold initState
  have hbase : SelInv (⟨cfg.mode, none, none, none⟩ : SelState)
      ∧ (∀ s, (⟨cfg.mode, none, none, none⟩ : SelState).selectedStartDate = some s → msOk s) :=
    ⟨⟨fun _ => rfl, fun s' e' hs' => Option.noConfusion hs'⟩, fun s' hs' => Option.noConfusion hs'⟩
  by_cases hc : cfg.defaultToToday = true ∧ cfg.mode = Mode.single
  · rw [if_pos hc]
    exact selectDate_inv env cfg _ env.now hnow hbase.1 hbase.2
  · rw [if_neg hc]
    exact hbase

lemma parseDate_strVal (env : JsEnv) (s : String) :
    parseDate env (.strVal s)
      = (if s = "" then none
         else if s = "today" then some env.now
         else match isoMatch s with
           | some (y, m, d) => some (mkDate y (m - 1) d)
           | none => env.genericParse s) := rfl

def cfgBlk : Config := ⟨.range, .nullVal, .nullVal, none, none, [.strRule "2025-11-26"], none, 1, 365, false, 72, 12⟩

def cfgPag : Config := ⟨.single, .nullVal, .nullVal, none, none, [], none, 1, 365, false, 3, 2⟩

/-- Claim C1: in Range mode, when a start is set, no end is set, and the
non-disabled candidate is not before the start, selectDate computes
nights = daysDiff(start, candidate); if nights < minRangeDays - 1 or
nights > maxRangeDays - 1 the range is rejected (start := candidate, end
cleared, no notification), otherwise the range is accepted and the change
notification fires with nights and days = nights + 1.  In particular with
minRangeDays = 2, a candidate producing nights = 0 is rejected and
restarts the range at the candidate, while nights = 1 is accepted. -/
theorem claim_C1_range_completion (env : JsEnv) (cfg : Config) (st : SelState) (s date : JSDate)
    (hm : st.mode = Mode.range) (hs : st.selectedStartDate = some s)
    (he : st.selectedEndDate = none)
    (hdis : pickerIsDateDisabled env cfg date = false)
    (hord : ¬ tstamp date < tstamp s) :
    (daysDiff s date < cfg.minRangeDays - 1 ∨ cfg.maxRangeDays - 1 < daysDiff s date →
      selectDate env cfg st date
        = ({ st with selectedStartDate := some date, selectedEndDate := none }, none))
    ∧ (¬ (daysDiff s date < cfg.minRangeDays - 1 ∨ cfg.maxRangeDays - 1 < daysDiff s date) →
      selectDate env cfg st date
        = ({ st with selectedEndDate := some date },
            some (getChangeData { st with selectedEndDate := some date }))
      ∧ notifNights (selectDate env cfg st date).2 = some (daysDiff s date)
      ∧ notifDays (selectDate env cfg st date).2 = some (daysDiff s date + 1))
    ∧ selectDate envFix cfgMin2 ⟨Mode.range, none, some dNov25, none⟩ dNov25
        = (⟨Mode.range, none, some dNov25, none⟩, none)
    ∧ daysDiff dNov25 dNov25 = 0
    ∧ (selectDate envFix cfgMin2 ⟨Mode.range, none, some dNov25, none⟩ dNov26).1
        = ⟨Mode.range, none, some dNov25, some dNov26⟩
    ∧ daysDiff dNov25 dNov26 = 1
    ∧ notifNights (selectDate envFix cfgMin2 ⟨Mode.range, none, some dNov25, none⟩ dNov26).2 = some 1
    ∧ notifDays (selectDate envFix cfgMin2 ⟨Mode.range, none, some dNov25, none⟩ dNov26).2 = some 2 := by
  have hsel : selectDate env cfg st date = handleRangeSelection cfg st date := by
    unfold selectDate
    rw [hdis]
    rw [if_neg (by simp)]
    rw [hm]
  have hcomp := handleRange_complete cfg st date s hs he hord
  refine ⟨?_, ?_, by decide, by decide, by decide, by decide, by decide, by decide⟩
  · intro hrej
    rw [hsel, hcomp, if_pos hrej]
  · intro hacc
    rw [hsel, hcomp, if_neg hacc]
    refine ⟨rfl, ?_, ?_⟩ <;> rw [hm, hs] <;> rfl

theorem claim_C1_range_completion_witness :
    ¬ (daysDiff dNov26 dNov28 < cfgMin2.minRangeDays - 1
        ∨ cfgMin2.maxRangeDays - 1 < daysDiff dNov26 dNov28)
    ∧ (selectDate envFix cfgMin2 ⟨Mode.range, none, some dNov26, none⟩ dNov28
        = (⟨Mode.range, none, some dNov26, some dNov28⟩,
            some (getChangeData ⟨Mode.range, none, some dNov26, some dNov28⟩))
      ∧ notifNights (selectDate envFix cfgMin2 ⟨Mode.range, none, some dNov26, none⟩ dNov28).2
          = some (daysDiff dNov26 dNov28)
      ∧ notifDays (selectDate envFix cfgMin2 ⟨Mode.range, none, some dNov26, none⟩ dNov28).2
          = some (daysDiff dNov26 dNov28 + 1)) :=
  ⟨by decide, (claim_C1_range_completion envFix cfgMin2 ⟨Mode.range, none, some dNov26, none⟩
    dNov26 dNov28 rfl rfl rfl (by decide) (by decide)).2.1 (by decide)⟩

/-- Claim C2 counterexample: a selectDate call whose candidate is not
disabled but whose tentative range violates minRangeDays (minRangeDays
3, start Nov 25 2025, end unset, candidate Nov 26 2025, nights 1 < 2) is
rejected with no notification, but the selection state is NOT unchanged
by the call: selectedStartDate moves from Nov 25 to the candidate
Nov 26, refuting the claim as stated. -/
theorem claim_C2_counterexample :
    pickerIsDateDisabled envFix cfgMin3 dNov26 = false
    ∧ (⟨Mode.range, none, some dNov25, none⟩ : SelState).selectedEndDate = none
    ∧ daysDiff dNov25 dNov26 < cfgMin3.minRangeDays - 1
    ∧ (selectDate envFix cfgMin3 ⟨Mode.range, none, some dNov25, none⟩ dNov26).2 = none
    ∧ (selectDate envFix cfgMin3 ⟨Mode.range, none, some dNov25, none⟩ dNov26).1.selectedStartDate
        = some dNov26
    ∧ ¬ (selectDate envFix cfgMin3 ⟨Mode.range, none, some dNov25, none⟩ dNov26).1.selectedStartDate
        = (⟨Mode.range, none, some dNov25, none⟩ : SelState).selectedStartDate := by
  decide

/-- Claim C2 amended: every rejected selectDate transition is silent -
the transition function is total (so no exception) and produces no
change notification.  A disabled candidate leaves the whole selection
state unchanged; a tentative range that violates the
minRangeDays/maxRangeDays constraints instead restarts the range at the
candidate: selectedStartDate := candidate, selectedEndDate cleared, and
selectedDate untouched. -/
theorem claim_C2_amended (env : JsEnv) (cfg : Config) (st : SelState) (date : JSDate) :
    (pickerIsDateDisabled env cfg date = true → selectDate env cfg st date = (st, none))
    ∧ (∀ s, st.mode = Mode.range → st.selectedStartDate = some s → st.selectedEndDate = none →
        pickerIsDateDisabled env cfg date = false → ¬ tstamp date < tstamp s →
        (daysDiff s date < cfg.minRangeDays - 1 ∨ cfg.maxRangeDays - 1 < daysDiff s date) →
        selectDate env cfg st date
          = ({ st with selectedStartDate := some date, selectedEndDate := none }, none)
        ∧ (selectDate env cfg st date).2 = none
        ∧ (selectDate env cfg st date).1.selectedDate = st.selectedDate
        ∧ (selectDate env cfg st date).1.selectedStartDate = some date
        ∧ (selectDate env cfg st date).1.selectedEndDate = none) := by
  constructor
  · intro hdis
    unfold selectDate
    rw [hdis]
    rw [if_pos rfl]
  · intro s hm hs he hdis hord hrej
    have hsel : selectDate env cfg st date = handleRangeSelection cfg st date := by
      unfold selectDate
      rw [hdis]
      rw [if_neg (by simp)]
      rw [hm]
    have hmain : selectDate env cfg st date
        = ({ st with selectedStartDate := some date, selectedEndDate := none }, none) := by
      rw [hsel, handleRange_complete cfg st date s hs he hord, if_pos hrej]
    refine ⟨hmain, ?_, ?_, ?_, ?_⟩ <;> rw [hmain]

theorem claim_C2_amended_witness :
    pickerIsDateDisabled envFix cfgBlk dNov26 = true
    ∧ selectDate envFix cfgBlk ⟨Mode.range, none, some dNov25, none⟩ dNov26
        = (⟨Mode.range, none, some dNov25, none⟩, none)
    ∧ pickerIsDateDisabled envFix cfgMin3 dNov26 = false
    ∧ (daysDiff dNov25 dNov26 < cfgMin3.minRangeDays - 1
        ∨ cfgMin3.maxRangeDays - 1 < daysDiff dNov25 dNov26)
    ∧ selectDate envFix cfgMin3 ⟨Mode.range, none, some dNov25, none⟩ dNov26
        = (⟨Mode.range, none, some dNov26, none⟩, none)
    ∧ (selectDate envFix cfgMin3 ⟨Mode.range, none, some dNov25, none⟩ dNov26).1.selectedDate
        = (⟨Mode.range, none, some dNov25, none⟩ : SelState).selectedDate :=
  ⟨by decide,
    (claim_C2_amended envFix cfgBlk ⟨Mode.range, none, some dNov25, none⟩ dNov26).1 (by decide),
    by decide, by decide,
    ((claim_C2_amended envFix cfgMin3 ⟨Mode.range, none, some dNov25, none⟩ dNov26).2 dNov25
      rfl rfl rfl (by decide) (by decide) (by decide)).1,
    ((claim_C2_amended envFix cfgMin3 ⟨Mode.range, none, some dNov25, none⟩ dNov26).2 dNov25
      rfl rfl rfl (by decide) (by decide) (by decide)).2.2.1⟩

/-- Claim C7: loading a month whose key is already present in the loaded
set is a no-op, and every sequence of loadInitialMonths/loadNext
operations on a fresh picker leaves the loaded-month list free of
duplicates (in particular two consecutive loadNext calls over the same
last key cannot duplicate a key). -/
theorem claim_C7_idempotent :
    (∀ months y m, monthKey y m ∈ months → loadMonthK months y m = months)
    ∧ (∀ env cfg ops, (runPag env cfg ops).Nodup) := by
  constructor
  · intro months y m hmem
    unfold loadMonthK
    dsimp only
    rw [if_pos hmem]
  · intro env cfg ops
    unfold runPag
    have main : ∀ (l : List PagOp) (acc : List String), acc.Nodup →
        (l.foldl (pagStep env cfg) acc).Nodup := by
      intro l
      induction l with
      | nil => intro acc h; exact h
      | cons op l ih =>
        intro acc h
        rw [List.foldl_cons]
        exact ih _ (pagStep_nodup env cfg h op)
    exact main ops [] List.nodup_nil

theorem claim_C7_idempotent_witness :
    monthKey 2025 10 ∈ ["2025-10", "2025-11"]
    ∧ loadMonthK ["2025-10", "2025-11"] 2025 10 = ["2025-10", "2025-11"] :=
  ⟨by decide, claim_C7_idempotent.1 ["2025-10", "2025-11"] 2025 10 (by decide)⟩

/-- Claim C9: after any sequence of selectDate/switchMode operations on
a freshly constructed picker (fed host-produced dates), whenever both
selectedStartDate and selectedEndDate are present the start's calendar
day is at most the end's, and selectedEndDate is absent whenever
selectedStartDate is absent. -/
theorem claim_C9_range_invariant (env : JsEnv) (cfg : Config) (ops : List SelOp)
    (hnow : msOk env.now) (hops : ∀ d, SelOp.sel d ∈ ops → msOk d) :
    SelInv (runSel env cfg ops) := by
  unfold runSel
  have main : ∀ (l : List SelOp) (st : SelState), (∀ d, SelOp.sel d ∈ l → msOk d) →
      SelInv st → (∀ s, st.selectedStartDate = some s → msOk s) →
      SelInv (l.foldl (selStep env cfg) st)
        ∧ (∀ s, (l.foldl (selStep env cfg) st).selectedStartDate = some s → msOk s) := by
    intro l
    induction l with
    | nil => intro st _ h1 h2; exact ⟨h1, h2⟩
    | cons op l ih =>
      intro st hl h1 h2
      rw [List.foldl_cons]
      have hstep : SelInv (selStep env cfg st op)
          ∧ (∀ s, (selStep env cfg st op).selectedStartDate = some s → msOk s) := by
        cases op with
        | sel d => exact selectDate_inv env cfg st d (hl d (by simp)) h1 h2
        | switch m => exact switchMode_inv st m h1 h2
      exact ih _ (fun d hd => hl d (by simp [hd])) hstep.1 hstep.2
  have hinit := initState_inv env cfg hnow
  exact (main ops _ hops hinit.1 hinit.2).1

theorem claim_C9_range_invariant_witness :
    msOk envFix.now
    ∧ SelInv (runSel envFix cfgMin2 [SelOp.sel dNov26, SelOp.switch Mode.single,
        SelOp.switch Mode.range, SelOp.sel dNov26, SelOp.sel dNov28]) :=
  ⟨by decide, claim_C9_range_invariant envFix cfgMin2 _ (by decide) (by
    intro d hd
    simp at hd
    rcases hd with rfl | rfl | rfl <;> decide)⟩

/-- Claim C10 counterexample: the shape-matching string "2025-03-00"
names no real calendar day, and parseDate returns the rolled-over date
Feb 28 2025 - a month EARLIER than the named month (March 2025), not a
later one, refuting the universally phrased "later month" claim. -/
theorem claim_C10_counterexample :
    isoMatch "2025-03-00" = some (2025, 3, 0)
    ∧ parseDate envFix (.strVal "2025-03-00") = some ⟨2025, 1, 28, 0⟩
    ∧ (⟨2025, 1, 28, 0⟩ : JSDate).year * 12 + (⟨2025, 1, 28, 0⟩ : JSDate).month
        < 2025 * 12 + (3 - 1) := by
  decide

/-- Claim C10 amended: parseDate never rejects a string matching the
YYYY-MM-DD shape - the components are fed to the Date constructor and
normalised, so out-of-range components are silently reinterpreted rather
than ignored: overflowing components roll into a LATER month
("2025-02-31" gives Mar 3 2025) while zero components roll into an
EARLIER one ("2025-03-00" gives Feb 28 2025). -/
theorem claim_C10_amended :
    (∀ env s y m dd, isoMatch s = some (y, m, dd) →
      parseDate env (.strVal s) = some (mkDate y (m - 1) dd))
    ∧ parseDate envFix (.strVal "2025-02-31") = some ⟨2025, 2, 3, 0⟩
    ∧ parseDate envFix (.strVal "2025-03-00") = some ⟨2025, 1, 28, 0⟩ := by
  refine ⟨?_, by decide, by decide⟩
  intro env s y m dd h
  have h1 : ¬ s = "" := fun he => Option.noConfusion (he ▸ h)
  have h2 : ¬ s = "today" := fun he => Option.noConfusion (he ▸ h)
  rw [parseDate_strVal, if_neg h1, if_neg h2, h]

theorem claim_C10_amended_witness :
    isoMatch "2025-02-31" = some (2025, 2, 31)
    ∧ parseDate envFix (.strVal "2025-02-31") = some (mkDate 2025 (2 - 1) 31)
    ∧ mkDate 2025 (2 - 1) 31 = ⟨2025, 2, 3, 0⟩ :=
  ⟨by decide, claim_C10_amended.1 envFix "2025-02-31" 2025 2 31 (by decide), by decide⟩

def wlRules : List Rule := [Rule.interval (.strVal "2025-04-01") (.strVal "2025-04-07")]

def cfgWL : Config := ⟨.single, .nullVal, .nullVal, none, none, [], some wlRules, 1, 365, false, 72, 12⟩

/-- Claim C4: with a non-null whitelist configured, a date matching no
whitelist rule is disabled regardless of the blacklist; whitelist rule
matching is identical to blacklist rule matching per variant: a predicate
is called on the date, an exact Date matches by ISO-day equality, a
string matches the date's ISO-day string textually, and a from/to range
object matches inclusively by lexicographic ISO-day-string comparison. -/
theorem claim_C4_whitelist :
    (∀ env cfg date arr, cfg.enable = some arr → isDateEnabledU env date arr = false →
        pickerIsDateDisabled env cfg date = true)
    ∧ (∀ env date r, enableRuleHit env date r = disableRuleHit env date r)
    ∧ (∀ env date f, enableRuleHit env date (Rule.pred f) = f date)
    ∧ (∀ env date dd, enableRuleHit env date (Rule.dateRule dd) = (iso date == iso dd))
    ∧ (∀ env date str, enableRuleHit env date (Rule.strRule str) = (iso date == str))
    ∧ (∀ env date lo hi fromD toD, truthy lo = true → truthy hi = true →
        parseDate env lo = some fromD → parseDate env hi = some toD →
        enableRuleHit env date (Rule.interval lo hi)
          = (jsStrLe (iso fromD) (iso date) && jsStrLe (iso date) (iso toD))) := by
  refine ⟨?_, ?_, fun _ _ _ => rfl, fun _ _ _ => rfl, fun _ _ _ => rfl, ?_⟩
  · intro env cfg date arr he hno
    unfold pickerIsDateDisabled
    rw [he]
    dsimp only
    rw [hno]
    rw [if_pos (show (!false) = true from rfl)]
  · intro env date r
    cases r <;> rfl
  · intro env date lo hi fromD toD hlo hhi hfrom hto
    show (if truthy lo && truthy hi then
        match parseDate env lo, parseDate env hi with
        | some fromDate, some toDate =>
          jsStrLe (iso fromDate) (iso date) && jsStrLe (iso date) (iso toDate)
        | _, _ => false
      else false) = _
    simp only [hlo, hhi, hfrom, hto, Bool.and_self, if_pos]

theorem claim_C4_whitelist_witness :
    isDateEnabledU envFix dNov25 wlRules = false
    ∧ pickerIsDateDisabled envFix cfgWL dNov25 = true :=
  ⟨by decide, claim_C4_whitelist.1 envFix cfgWL dNov25 wlRules rfl (by decide)⟩

/-- Claim C6 counterexample: for the valid date Jan 1 of year 999, iso
emits "999-01-01", whose year part is not zero-padded to four digits, so
the string does not match parseDate's strict YYYY-MM-DD pattern and falls
through to the engine-defined generic parser; under an environment whose
generic parser accepts nothing, parseDate returns null and the round trip
fails, refuting the claim as stated for every valid Date value. -/
theorem claim_C6_counterexample :
    DateValid ⟨999, 0, 1, 0⟩
    ∧ iso ⟨999, 0, 1, 0⟩ = "999-01-01"
    ∧ isoMatch (iso ⟨999, 0, 1, 0⟩) = none
    ∧ parseDate envFix (.strVal (iso ⟨999, 0, 1, 0⟩)) = none
    ∧ isSameDay (parseDate envFix (.strVal (iso ⟨999, 0, 1, 0⟩))) (some ⟨999, 0, 1, 0⟩) = false := by
  decide

/-- Claim C6 amended: for every valid date whose year lies in 1000..9999,
iso emits a well-formed local YYYY-MM-DD string (month and day
zero-padded, year four digits), parseDate takes the local-day ISO branch
regardless of the engine's generic parser, and the parse yields the same
calendar day at local midnight, so the round trip holds up to
isSameDay. -/
theorem claim_C6_amended (env : JsEnv) (d : JSDate) (hv : DateValid d)
    (hy1 : 1000 ≤ d.year) (hy2 : d.year ≤ 9999) :
    parseDate env (.strVal (iso d)) = some (⟨d.year, d.month, d.day, 0⟩ : JSDate)
    ∧ isSameDay (parseDate env (.strVal (iso d))) (some d) = true := by
  have hmatch := isoMatch_iso hv hy1 hy2
  have h1 : ¬ iso d = "" := fun he => Option.noConfusion (he ▸ hmatch)
  have h2 : ¬ iso d = "today" := fun he => Option.noConfusion (he ▸ hmatch)
  obtain ⟨hm0, hm12, hd1, hd2, -, -⟩ := hv
  have hparse : parseDate env (.strVal (iso d)) = some (⟨d.year, d.month, d.day, 0⟩ : JSDate) := by
    rw [parseDate_strVal, if_neg h1, if_neg h2, hmatch]
    dsimp only
    rw [show d.month + 1 - 1 = d.month by ring]
    rw [mkDate_id hm0 hm12 hd1 hd2]
  refine ⟨hparse, ?_⟩
  rw [hparse]
  obtain ⟨y, mo, da, ms⟩ := d
  show (iso ⟨y, mo, da, 0⟩ == iso ⟨y, mo, da, ms⟩) = true
  rw [show iso ⟨y, mo, da, ms⟩ = iso ⟨y, mo, da, 0⟩ from rfl]
  simp

theorem claim_C6_amended_witness :
    DateValid dNov25 ∧ 1000 ≤ dNov25.year ∧ dNov25.year ≤ 9999
    ∧ isSameDay (parseDate envFix (.strVal (iso dNov25))) (some dNov25) = true :=
  ⟨by decide, by decide, by decide,
    (claim_C6_amended envFix dNov25 (by decide) (by decide) (by decide)).2⟩

def cfgMax : Config := ⟨.single, .nullVal, .strVal "2025-11-25", none, none, [], none, 1, 365, false, 72, 12⟩

def cfgMin1 : Config := ⟨.range, .nullVal, .nullVal, none, none, [], none, 1, 365, false, 72, 12⟩

def dNoon : JSDate := ⟨2025, 10, 25, 43200000⟩

lemma iso_ymd_congr {d d' : JSDate} (hy : d.year = d'.year) (hm : d.month = d'.month)
    (hd : d.day = d'.day) : iso d = iso d' := by
  unfold iso
  rw [hy, hm, hd]

lemma disableRuleHit_day {env : JsEnv} {d d' : JSDate} (hiso : iso d = iso d') {r : Rule}
    (hr : isPredRule r = false) : disableRuleHit env d r = disableRuleHit env d' r := by
  cases r with
  | pred f => exact absurd hr (by simp [isPredRule])
  | dateRule dd =>
    show (iso d == iso dd) = (iso d' == iso dd)
    rw [hiso]
  | strRule str =>
    show (iso d == str) = (iso d' == str)
    rw [hiso]
  | interval lo hi =>
    show (if truthy lo && truthy hi then
        match parseDate env lo, parseDate env hi with
        | some fromDate, some toDate =>
          jsStrLe (iso fromDate) (iso d) && jsStrLe (iso d) (iso toDate)
        | _, _ => false
      else false) =
      (if truthy lo && truthy hi then
        match parseDate env lo, parseDate env hi with
        | some fromDate, some toDate =>
          jsStrLe (iso fromDate) (iso d') && jsStrLe (iso d') (iso toDate)
        | _, _ => false
      else false)
    rw [hiso]

lemma enableRuleHit_day {env : JsEnv} {d d' : JSDate} (hiso : iso d = iso d') {r : Rule}
    (hr : isPredRule r = false) : enableRuleHit env d r = enableRuleHit env d' r := by
  cases r with
  | pred f => exact absurd hr (by simp [isPredRule])
  | dateRule dd =>
    show (iso d == iso dd) = (iso d' == iso dd)
    rw [hiso]
  | strRule str =>
    show (iso d == str) = (iso d' == str)
    rw [hiso]
  | interval lo hi =>
    show (if truthy lo && truthy hi then
        match parseDate env lo, parseDate env hi with
        | some fromDate, some toDate =>
          jsStrLe (iso fromDate) (iso d) && jsStrLe (iso d) (iso toDate)
        | _, _ => false
      else false) =
      (if truthy lo && truthy hi then
        match parseDate env lo, parseDate env hi with
        | some fromDate, some toDate =>
          jsStrLe (iso fromDate) (iso d') && jsStrLe (iso d') (iso toDate)
        | _, _ => false
      else false)
    rw [hiso]

lemma isDateDisabledU_day {env : JsEnv} {arr : List Rule} {d d' : JSDate} (hiso : iso d = iso d')
    (harr : ∀ r ∈ arr, isPredRule r = false) :
    isDateDisabledU env d arr = isDateDisabledU env d' arr := by
  unfold isDateDisabledU
  induction arr with
  | nil => rfl
  | cons r rs ih =>
    rw [List.any_cons, List.any_cons, disableRuleHit_day hiso (harr r (by simp)),
      ih (fun r hr => harr r (by simp [hr]))]

lemma isDateEnabledU_day {env : JsEnv} {arr : List Rule} {d d' : JSDate} (hiso : iso d = iso d')
    (harr : ∀ r ∈ arr, isPredRule r = false) :
    isDateEnabledU env d arr = isDateEnabledU env d' arr := by
  unfold isDateEnabledU
  induction arr with
  | nil => rfl
  | cons r rs ih =>
    rw [List.any_cons, List.any_cons, enableRuleHit_day hiso (harr r (by simp)),
      ih (fun r hr => harr r (by simp [hr]))]

/-- Claim C3 counterexample: two Date inputs on the same local calendar
day but with different times of day are distinguished both by
isDateDisabled (with maxDate "2025-11-25", the midnight instant of Nov 25
is allowed while one millisecond later is disabled, because the bound
check compares full timestamps) and by the Range-mode ordering decision
(against a start at noon, a same-day earlier candidate restarts the range
while a same-day later candidate completes it), refuting the claim as
stated. -/
theorem claim_C3_counterexample :
    ((⟨2025, 10, 25, 0⟩ : JSDate).year = (⟨2025, 10, 25, 1⟩ : JSDate).year
      ∧ (⟨2025, 10, 25, 0⟩ : JSDate).month = (⟨2025, 10, 25, 1⟩ : JSDate).month
      ∧ (⟨2025, 10, 25, 0⟩ : JSDate).day = (⟨2025, 10, 25, 1⟩ : JSDate).day)
    ∧ pickerIsDateDisabled envFix cfgMax ⟨2025, 10, 25, 0⟩ = false
    ∧ pickerIsDateDisabled envFix cfgMax ⟨2025, 10, 25, 1⟩ = true
    ∧ ((⟨2025, 10, 25, 0⟩ : JSDate).year = (⟨2025, 10, 25, 50000000⟩ : JSDate).year
      ∧ (⟨2025, 10, 25, 0⟩ : JSDate).month = (⟨2025, 10, 25, 50000000⟩ : JSDate).month
      ∧ (⟨2025, 10, 25, 0⟩ : JSDate).day = (⟨2025, 10, 25, 50000000⟩ : JSDate).day)
    ∧ (selectDate envFix cfgMin1 ⟨Mode.range, none, some dNoon, none⟩
        ⟨2025, 10, 25, 0⟩).1.selectedEndDate = none
    ∧ (selectDate envFix cfgMin1 ⟨Mode.range, none, some dNoon, none⟩
        ⟨2025, 10, 25, 50000000⟩).1.selectedEndDate = some ⟨2025, 10, 25, 50000000⟩ := by
  decide

/-- Claim C3 amended: disable/enable RULE matching operates at
calendar-day granularity - for rule lists free of predicate rules, both
rule evaluators depend only on the date's local year/month/day, and the
whole of isDateDisabled is day-granular when no minDate/maxDate bound is
configured.  The minDate/maxDate bound checks and the Range-mode ordering
decision, by contrast, compare full timestamps (the ordering decision
restarts the range exactly when the candidate's timestamp is below the
start's). -/
theorem claim_C3_amended :
    (∀ (env : JsEnv) (arr : List Rule) (d d' : JSDate),
        d.year = d'.year → d.month = d'.month → d.day = d'.day →
        (∀ r ∈ arr, isPredRule r = false) →
        isDateDisabledU env d arr = isDateDisabledU env d' arr
          ∧ isDateEnabledU env d arr = isDateEnabledU env d' arr)
    ∧ (∀ (env : JsEnv) (cfg : Config) (d d' : JSDate),
        cfg.minDate = DateInput.nullVal → cfg.maxDate = DateInput.nullVal →
        (∀ r ∈ cfg.disable, isPredRule r = false) →
        (∀ arr, cfg.enable = some arr → ∀ r ∈ arr, isPredRule r = false) →
        d.year = d'.year → d.month = d'.month → d.day = d'.day →
        pickerIsDateDisabled env cfg d = pickerIsDateDisabled env cfg d')
    ∧ (∀ (cfg : Config) (st : SelState) (date s : JSDate), st.selectedStartDate = some s →
        st.selectedEndDate = none → tstamp date < tstamp s →
        handleRangeSelection cfg st date
          = ({ st with selectedStartDate := some date, selectedEndDate := none }, none)) := by
  refine ⟨?_, ?_, ?_⟩
  · intro env arr d d' hy hm hd harr
    have hiso := iso_ymd_congr hy hm hd
    exact ⟨isDateDisabledU_day hiso harr, isDateEnabledU_day hiso harr⟩
  · intro env cfg d d' hmin hmax hdis hen hy hm hd
    have hiso := iso_ymd_congr hy hm hd
    unfold pickerIsDateDisabled
    rw [hmin, hmax]
    simp only [show truthy DateInput.nullVal = false from rfl, Bool.false_and]
    rw [isDateDisabledU_day hiso hdis]
    cases he : cfg.enable with
    | none => rfl
    | some arr =>
      dsimp only
      rw [isDateEnabledU_day hiso (hen arr he)]
  · intro cfg st date s hs he hord
    obtain ⟨mo, sd, ss, se⟩ := st
    simp only at hs he
    subst hs he
    show (if tstamp date < tstamp s then
        ((⟨mo, sd, some date, none⟩ : SelState), (none : Option ChangeData))
      else
        let st1 : SelState := ⟨mo, sd, some s, some date⟩
        let dd := daysDiff s date
        if dd < cfg.minRangeDays - 1 then ((⟨mo, sd, some date, none⟩ : SelState), none)
        else if cfg.maxRangeDays - 1 < dd then ((⟨mo, sd, some date, none⟩ : SelState), none)
        else (st1, some (getChangeData st1))) = _
    rw [if_pos hord]

theorem claim_C3_amended_witness :
    isDateDisabledU envFix ⟨2025, 10, 25, 5⟩ [Rule.strRule "2025-11-25"]
        = isDateDisabledU envFix ⟨2025, 10, 25, 9⟩ [Rule.strRule "2025-11-25"]
      ∧ isDateEnabledU envFix ⟨2025, 10, 25, 5⟩ [Rule.strRule "2025-11-25"]
        = isDateEnabledU envFix ⟨2025, 10, 25, 9⟩ [Rule.strRule "2025-11-25"] :=
  claim_C3_amended.1 envFix [Rule.strRule "2025-11-25"] ⟨2025, 10, 25, 5⟩ ⟨2025, 10, 25, 9⟩
    rfl rfl rfl (by intro r hr; simp at hr; subst hr; rfl)

/-- Claim C5: loadMoreMonths computes the month immediately following
the last loaded month (splitting its key back into year and month) and
loads nothing when the loaded-month count has reached maxMonths or the
candidate month's year exceeds a configured maxYear; with maxMonths = 3
and initialMonths = 2 starting at Nov 2025, two loadNext calls leave
exactly {Nov 2025, Dec 2025, Jan 2026} loaded and a third call loads
nothing. -/
theorem claim_C5_loadNext :
    (∀ (cfg : Config) (months : List String) (y m : Int), 0 ≤ y → 0 ≤ m → m < 12 →
        months.getLast? = some (monthKey y m) →
        loadMoreMonths cfg months =
          (if cfg.maxMonths ≤ months.length then months
           else
             if optYearTruthy cfg.maxYear
                 && decide (cfg.maxYear.getD 0 < (if m = 11 then y + 1 else y)) then months
             else loadMonthK months (if m = 11 then y + 1 else y) (if m = 11 then 0 else m + 1)))
    ∧ runPag envFix cfgPag [.init] = ["2025-10", "2025-11"]
    ∧ runPag envFix cfgPag [.init, .next] = ["2025-10", "2025-11", "2026-0"]
    ∧ runPag envFix cfgPag [.init, .next, .next] = ["2025-10", "2025-11", "2026-0"]
    ∧ runPag envFix cfgPag [.init, .next, .next, .next] = ["2025-10", "2025-11", "2026-0"] := by
  refine ⟨?_, by decide, by decide, by decide, by decide⟩
  intro cfg months y m hy hm0 hm12 hlast
  unfold loadMoreMonths
  by_cases hlen : cfg.maxMonths ≤ months.length
  · rw [if_pos hlen, if_pos hlen]
  · rw [if_neg hlen, if_neg hlen, hlast]
    dsimp only
    rw [jsSplitDash_monthKey hy hm0]
    dsimp only [List.map]
    rw [jsNumber_jsNumToString hy, jsNumber_jsNumToString hm0]
    simp only [List.getD, List.get?_cons_zero, List.get?_cons_succ, Option.getD_some]
    rw [mkDate_succ_month hm0 hm12]
    by_cases hm11 : m = 11
    · subst hm11
      simp
    · simp [hm11]

theorem claim_C5_loadNext_witness :
    (["2025-10", "2025-11"] : List String).getLast? = some (monthKey 2025 11)
    ∧ loadMoreMonths cfgPag ["2025-10", "2025-11"]
        = (if cfgPag.maxMonths ≤ (["2025-10", "2025-11"] : List String).length
            then ["2025-10", "2025-11"]
           else
             if optYearTruthy cfgPag.maxYear
                 && decide (cfgPag.maxYear.getD 0 < (if (11 : Int) = 11 then 2025 + 1 else 2025))
               then ["2025-10", "2025-11"]
             else loadMonthK ["2025-10", "2025-11"] (if (11 : Int) = 11 then 2025 + 1 else 2025)
               (if (11 : Int) = 11 then 0 else 11 + 1))
    ∧ loadMoreMonths cfgPag ["2025-10", "2025-11"] = ["2025-10", "2025-11", "2026-0"] :=
  ⟨by decide, claim_C5_loadNext.1 cfgPag ["2025-10", "2025-11"] 2025 11
    (by decide) (by decide) (by decide) (by decide), by decide⟩

lemma listGetJs_nonneg {l : List String} {i : Int} (h : 0 ≤ i) :
    listGetJs l i = l.getD i.toNat "undefined" := by
  unfold listGetJs
  rw [if_pos h]

lemma getDay_nonneg (d : JSDate) : 0 ≤ getDay d := Int.emod_nonneg _ (by norm_num)

/-- Claim C8: formatDate replaces each of the tokens YYYY, YY, MMMM,
MMM, MM, M, DD, D, dddd, ddd, dd using the static month/day name tables
and numeric fields; the regex alternation is ordered longest-token-first
within each letter group, so MMMM yields the full month name and is never
shadowed into two two-digit month numbers; with no (or an empty) pattern
it falls back to the locale-formatted string. -/
theorem claim_C8_formatDate (d : JSDate) (hv : DateValid d) :
    formatDate d (some "YYYY") = jsNumToString d.year
    ∧ formatDate d (some "YY") = sliceLast2 (jsNumToString d.year)
    ∧ formatDate d (some "MMMM") = MONTH_NAMES.getD d.month.toNat "undefined"
    ∧ formatDate d (some "MMM") = MONTH_NAMES_SHORT.getD d.month.toNat "undefined"
    ∧ formatDate d (some "MM") = padStart2 (jsNumToString (d.month + 1))
    ∧ formatDate d (some "M") = jsNumToString (d.month + 1)
    ∧ formatDate d (some "DD") = padStart2 (jsNumToString d.day)
    ∧ formatDate d (some "D") = jsNumToString d.day
    ∧ formatDate d (some "dddd") = DAY_NAMES.getD (getDay d).toNat "undefined"
    ∧ formatDate d (some "ddd") = DAY_NAMES_SHORT.getD (getDay d).toNat "undefined"
    ∧ formatDate d (some "dd")
        = String.mk ((DAY_NAMES_SHORT.getD (getDay d).toNat "undefined").data.take 2)
    ∧ formatDate d (some "MMMM")
        ≠ padStart2 (jsNumToString (d.month + 1)) ++ padStart2 (jsNumToString (d.month + 1))
    ∧ formatDate d none = fdate d
    ∧ formatDate d (some "") = fdate d := by
  obtain ⟨hm0, hm12, -, -, -, -⟩ := hv
  have hdow := getDay_nonneg d
  have h1 : formatDate d (some "YYYY") = jsNumToString d.year := by
    rw [formatDate_token d "YYYY" (by decide) (by decide)]
    rfl
  have h2 : formatDate d (some "YY") = sliceLast2 (jsNumToString d.year) := by
    rw [formatDate_token d "YY" (by decide) (by decide)]
    rfl
  have h3 : formatDate d (some "MMMM") = MONTH_NAMES.getD d.month.toNat "undefined" := by
    rw [formatDate_token d "MMMM" (by decide) (by decide)]
    rw [show formatMap d "MMMM" = listGetJs MONTH_NAMES d.month from rfl, listGetJs_nonneg hm0]
  have h4 : formatDate d (some "MMM") = MONTH_NAMES_SHORT.getD d.month.toNat "undefined" := by
    rw [formatDate_token d "MMM" (by decide) (by decide)]
    rw [show formatMap d "MMM" = listGetJs MONTH_NAMES_SHORT d.month from rfl, listGetJs_nonneg hm0]
  have h5 : formatDate d (some "MM") = padStart2 (jsNumToString (d.month + 1)) := by
    rw [formatDate_token d "MM" (by decide) (by decide)]
    rfl
  have h6 : formatDate d (some "M") = jsNumToString (d.month + 1) := by
    rw [formatDate_token d "M" (by decide) (by decide)]
    rfl
  have h7 : formatDate d (some "DD") = padStart2 (jsNumToString d.day) := by
    rw [formatDate_token d "DD" (by decide) (by decide)]
    rfl
  have h8 : formatDate d (some "D") = jsNumToString d.day := by
    rw [formatDate_token d "D" (by decide) (by decide)]
    rfl
  have h9 : formatDate d (some "dddd") = DAY_NAMES.getD (getDay d).toNat "undefined" := by
    rw [formatDate_token d "dddd" (by decide) (by decide)]
    rw [show formatMap d "dddd" = listGetJs DAY_NAMES (getDay d) from rfl, listGetJs_nonneg hdow]
  have h10 : formatDate d (some "ddd") = DAY_NAMES_SHORT.getD (getDay d).toNat "undefined" := by
    rw [formatDate_token d "ddd" (by decide) (by decide)]
    rw [show formatMap d "ddd" = listGetJs DAY_NAMES_SHORT (getDay d) from rfl, listGetJs_nonneg hdow]
  have h11 : formatDate d (some "dd")
      = String.mk ((DAY_NAMES_SHORT.getD (getDay d).toNat "undefined").data.take 2) := by
    rw [formatDate_token d "dd" (by decide) (by decide)]
    rw [show formatMap d "dd" = String.mk ((listGetJs DAY_NAMES_SHORT (getDay d)).data.take 2) from rfl]
    rw [listGetJs_nonneg hdow]
  have hne : formatDate d (some "MMMM")
      ≠ padStart2 (jsNumToString (d.month + 1)) ++ padStart2 (jsNumToString (d.month + 1)) := by
    rw [h3]
    obtain ⟨y, mo, da, ms⟩ := d
    simp only at hm0 hm12 ⊢
    interval_cases mo <;> decide
  exact ⟨h1, h2, h3, h4, h5, h6, h7, h8, h9, h10, h11, hne, rfl, rfl⟩

theorem claim_C8_formatDate_witness :
    DateValid dNov25
    ∧ formatDate dNov25 (some "MMMM") = MONTH_NAMES.getD dNov25.month.toNat "undefined"
    ∧ MONTH_NAMES.getD dNov25.month.toNat "undefined" = "November" :=
  ⟨by decide, (claim_C8_formatDate dNov25 (by decide)).2.2.1, by decide⟩
